import Mathlib

/-!
Verification of the MEX gateway `pwvd6_m.c` (TFSAP 7.1.1, polynomial
Wigner-Ville distribution, gateway routine for `pwvd6.c`).

The gateway `mexFunction` is shallowly embedded below.  Host facilities that
are not part of this repository's sources (`mxIsNumeric`, `MXFULL`,
`GoodScalar`, `tfsaErr`/`tfsaWarning`/`winNTcheck`, `MXCREATEFULL`, and the
engine `pwvd61`) are modelled from the spec as boolean attributes of the
arguments and of an environment record:

* an input argument carries the outcome of the host's numeric/full/scalar
  well-formedness tests together with the integer value obtained by the
  C cast `(int)*mxGetPr(...)`;
* `Env.allocOk` is the success of the `MXCREATEFULL` allocation and
  `Env.engineOk` is `pwvd61` returning zero; on any error path the spec says
  the caller receives no result matrix (`winNTcheck` clears the outputs), so
  an error result carries no matrix.

Floating-point remarks (why two spots of `double` arithmetic are embedded as
exact integer arithmetic): `nplts = (int)ceil((double)signal_length/time_res)`
is the exact ceiling for all `int`-range operands because the rounding error
of the double division is below the distance from the true quotient to the
next integer, and `(int)(window_r2*0.5)` is exact halving (truncated at
`window_r2 = 1`) because `window_r2` is a power of two, so both are embedded
as integer divisions.
-/

namespace PWVD6

/-- Modelled from the spec: the signal argument `prhs[0]` as the gateway sees
it through the host interface: the outcomes of the `mxIsNumeric` and `MXFULL`
tests, the dimensions `mxGetM`/`mxGetN`, and whether the data is complex. -/
structure SignalArg where
  isNumeric : Bool
  isFull : Bool
  M : Nat
  N : Nat
  isComplex : Bool
  deriving DecidableEq

/-- Modelled from the spec: a scalar argument `prhs[i]` (i ≥ 1): `good` is
the outcome of the host well-formedness test `GoodScalar`, and `value` is the
integer the gateway reads via the C cast `(int)*(mxGetPr(prhs[i]))`. -/
structure ScalarArg where
  good : Bool
  value : Int
  deriving DecidableEq

/-- A call to the gateway: output count `nlhs`, right-hand argument count
`nrhs`, the signal `prhs[0]`, and the four scalar slots `prhs[1]..prhs[4]`
(`fftArg` = `prhs[4]` is only ever read when `nrhs = 5`). -/
structure MexCall where
  nlhs : Nat
  nrhs : Nat
  signal : SignalArg
  winArg : ScalarArg
  timeArg : ScalarArg
  degArg : ScalarArg
  fftArg : ScalarArg
  deriving DecidableEq

/-- Modelled from the spec: the two external effects that can fail after
validation: `allocOk` is `MXCREATEFULL` returning non-NULL, `engineOk` is the
engine `pwvd61` (absent from the sources) returning zero. -/
structure Env where
  allocOk : Bool
  engineOk : Bool
  deriving DecidableEq

/-- The integer state the gateway has built when it reaches the allocation
and the engine call (line 219-229 of `pwvd6_m.c`): the allocated matrix
shape (`rows` × `cols`) and the normalized parameters passed to `pwvd61`. -/
structure GatewayOut where
  rows : Int
  cols : Int
  window_length : Int
  time_res : Int
  deg : Int
  fft_length : Int
  window_r2 : Int
  window_order : Nat
  deriving DecidableEq

/-- Result of a gateway call.  `error msg` is a `tfsaErr(msg)` path: by the
spec, `winNTcheck` then leaves the caller with no result matrix, so the
constructor carries no matrix.  `ok warned out` is a completed call; `warned`
records whether `tfsaWarning` (window-length truncation) was issued. -/
inductive GatewayResult where
  | error (msg : String)
  | ok (warned : Bool) (out : GatewayOut)
  deriving DecidableEq

/-- The radix-2 rounding loop of the gateway
(`r2 = 1; while (r2 < target) { ord++; r2 <<= 1; }`), with explicit fuel;
`target.toNat` fuel is always enough for the loop to reach its exit
condition (proved below). -/
def r2Loop (target : Int) : Int → Nat → Nat → Int × Nat
  | r2, ord, 0 => (r2, ord)
  | r2, ord, fuel + 1 =>
      if r2 < target then r2Loop target (2 * r2) (ord + 1) fuel else (r2, ord)

/-- Lines 211-217: `window_order = 0; window_r2 = 1;
while (window_r2 < fft_length) { window_order++; window_r2 <<= 1; }`. -/
def radix2 (target : Int) : Int × Nat :=
  r2Loop target 1 0 target.toNat

/-- Lines 167-170: `deg_r2 = 1; while (deg_r2 < deg) deg_r2 <<= 1;
deg = deg_r2;` — normalization of the interpolation degree. -/
def deg_r2 (deg : Int) : Int :=
  (r2Loop deg 1 0 deg.toNat).1

/-- Line 208: `nplts = (int) ceil((double)signal_length/time_res)`, which for
`int`-range positive operands is the exact integer ceiling
`(a + b - 1) / b`. -/
def ceilDivI (a b : Int) : Int :=
  (a + b - 1) / b

/-- Lines 60-76: the basic input-output number check. -/
def checkPreamble (c : MexCall) : Except String Unit :=
  if c.nrhs < 4 then .error "Not enough input arguments"
  else if c.nrhs > 5 then .error "Too many input arguments"
  else if c.nlhs > 1 then .error "Too many output arguments"
  else .ok ()

/-- Lines 83-104: numeric/full test and dimension test on `prhs[0]`;
returns `signal_length = (int)(M>N?M:N)` when the signal is accepted. -/
def checkSignal (c : MexCall) : Except String Int :=
  if c.signal.isNumeric = false ∨ c.signal.isFull = false then
    .error "Input must be a vector"
  else if (c.signal.M = 1 ∧ c.signal.N = 1) ∨ (c.signal.M ≠ 1 ∧ c.signal.N ≠ 1) then
    .error "Input must be a vector"
  else .ok (max c.signal.M c.signal.N : Nat)

/-- Lines 109-130: second input.  Returns the (possibly clamped)
`window_length` together with whether the truncation warning was issued. -/
def getWindow (c : MexCall) (signal_length : Int) : Except String (Int × Bool) :=
  if c.winArg.good = false then .error "Smoothing window length must be a scalar"
  else if c.winArg.value < 1 then .error "Window length must be greater than zero"
  else if c.winArg.value > signal_length then .ok (signal_length, true)
  else .ok (c.winArg.value, false)

/-- Lines 135-154: third input, the time resolution. -/
def getTime (c : MexCall) (signal_length : Int) : Except String Int :=
  if c.timeArg.good = false then .error "Time resolution must be a scalar"
  else if c.timeArg.value < 1 then .error "Time resolution must be greater than zero"
  else if c.timeArg.value > signal_length then
    .error "Time resolution must be no greater than signal length"
  else .ok c.timeArg.value

/-- Lines 159-170: fourth input, the interpolation degree, normalized by the
radix-2 rounding loop. -/
def getDeg (c : MexCall) : Except String Int :=
  if c.degArg.good = false then .error "Interpolation degree must be a scalar"
  else .ok (deg_r2 c.degArg.value)

/-- Lines 175-194: fifth input if it exists (default `window_length`), the
`fft_length < 0` check, and the raise `if (fft_length < window_length)
fft_length = window_length`. -/
def getFft (c : MexCall) (window_length : Int) : Except String Int :=
  match (if c.nrhs = 5 then
           (if c.fftArg.good = false then Except.error "FFT length must be a scalar"
            else Except.ok c.fftArg.value)
         else Except.ok window_length : Except String Int) with
  | .error e => .error e
  | .ok fl =>
      if fl < 0 then .error "FFT length must be greater than zero"
      else .ok (if fl < window_length then window_length else fl)

/-- The gateway `mexFunction` of `pwvd6_m.c`: the validation cascade, the
parameter normalization, the output-matrix shape computation
(`(int)(window_r2*0.5)` rows by `nplts` columns), the allocation, and the
engine call. -/
def mexFunction (c : MexCall) (env : Env) : GatewayResult :=
  match checkPreamble c with
  | .error e => .error e
  | .ok _ =>
    match checkSignal c with
    | .error e => .error e
    | .ok signal_length =>
      match getWindow c signal_length with
      | .error e => .error e
      | .ok (window_length, warned) =>
        match getTime c signal_length with
        | .error e => .error e
        | .ok time_res =>
          match getDeg c with
          | .error e => .error e
          | .ok deg =>
            match getFft c window_length with
            | .error e => .error e
            | .ok fft_length =>
              if env.allocOk = false then .error "Memory allocation failed"
              else if env.engineOk = false then .error "Function failed"
              else .ok warned
                { rows := (radix2 fft_length).1 / 2,
                  cols := ceilDivI signal_length time_res,
                  window_length := window_length, time_res := time_res,
                  deg := deg, fft_length := fft_length,
                  window_r2 := (radix2 fft_length).1,
                  window_order := (radix2 fft_length).2 }

/-- `signal_length` as the gateway computes it from the dimensions. -/
def signalLen (c : MexCall) : Int :=
  (max c.signal.M c.signal.N : Nat)

/-- The window length after the line-127 clamp. -/
def wlClamped (c : MexCall) : Int :=
  if c.winArg.value > signalLen c then signalLen c else c.winArg.value

/-- The requested FFT length: `prhs[4]` when present, else the default
`window_length` (after the clamp), as in lines 175-185. -/
def fftReq (c : MexCall) : Int :=
  if c.nrhs = 5 then c.fftArg.value else wlClamped c

/-- The effective FFT length after the line-194 raise to `window_length`. -/
def fftEff (c : MexCall) : Int :=
  if fftReq c < wlClamped c then wlClamped c else fftReq c

/-- A call that satisfies every gateway precondition: correct arity, a
numeric full vector signal of length ≥ 2, well-formed scalars with
`window_length ≥ 1`, `1 ≤ time_step ≤ signal_length`, and a transform
length ≥ 0 when supplied. -/
def ValidCall (c : MexCall) : Prop :=
  (c.nrhs = 4 ∨ c.nrhs = 5) ∧ c.nlhs ≤ 1 ∧
  c.signal.isNumeric = true ∧ c.signal.isFull = true ∧
  ((c.signal.M = 1 ∧ 2 ≤ c.signal.N) ∨ (c.signal.N = 1 ∧ 2 ≤ c.signal.M)) ∧
  c.winArg.good = true ∧ 1 ≤ c.winArg.value ∧
  c.timeArg.good = true ∧ 1 ≤ c.timeArg.value ∧ c.timeArg.value ≤ signalLen c ∧
  c.degArg.good = true ∧
  (c.nrhs = 5 → c.fftArg.good = true ∧ 0 ≤ c.fftArg.value)

instance (c : MexCall) : Decidable (ValidCall c) := by
  unfold ValidCall; infer_instance

/-- Environment in which both the allocation and the engine succeed. -/
def exEnv : Env := ⟨true, true⟩

/-- A well-formed call: a 1×8 real signal, `window_length = 4`,
`time_res = 2`, `deg = 2`, no fifth argument. -/
def exCall : MexCall :=
  ⟨1, 4, ⟨true, true, 1, 8, false⟩, ⟨true, 4⟩, ⟨true, 2⟩, ⟨true, 2⟩, ⟨true, 0⟩⟩

/-- A well-formed five-argument call with `fft_length = 7` requested. -/
def exCall5 : MexCall :=
  ⟨1, 5, ⟨true, true, 1, 8, false⟩, ⟨true, 4⟩, ⟨true, 2⟩, ⟨true, 2⟩, ⟨true, 7⟩⟩

/-- A call whose window length 10 exceeds the signal length 8. -/
def exClampCall : MexCall :=
  ⟨1, 4, ⟨true, true, 1, 8, false⟩, ⟨true, 10⟩, ⟨true, 2⟩, ⟨true, 2⟩, ⟨true, 0⟩⟩

/-- A call whose signal is an empty 0×1 column vector (zero elements). -/
def ex0x1Call : MexCall :=
  ⟨1, 4, ⟨true, true, 0, 1, false⟩, ⟨true, 1⟩, ⟨true, 1⟩, ⟨true, 2⟩, ⟨true, 0⟩⟩

/-- A call with `window_length = 1` and no fifth argument, on a 1×2 signal. -/
def exZeroRowsCall : MexCall :=
  ⟨1, 4, ⟨true, true, 1, 2, false⟩, ⟨true, 1⟩, ⟨true, 1⟩, ⟨true, 1⟩, ⟨true, 0⟩⟩

/-- A call with `time_res = 0`. -/
def exTs0Call : MexCall :=
  ⟨1, 4, ⟨true, true, 1, 8, false⟩, ⟨true, 4⟩, ⟨true, 0⟩, ⟨true, 2⟩, ⟨true, 0⟩⟩

/-- A call with `window_length = 0`. -/
def exWin0Call : MexCall :=
  ⟨1, 4, ⟨true, true, 1, 8, false⟩, ⟨true, 0⟩, ⟨true, 2⟩, ⟨true, 2⟩, ⟨true, 0⟩⟩

/-- A five-argument call with requested FFT length -1. -/
def exFftNeg1Call : MexCall :=
  ⟨1, 5, ⟨true, true, 1, 8, false⟩, ⟨true, 4⟩, ⟨true, 2⟩, ⟨true, 2⟩, ⟨true, -1⟩⟩

/-- A call with only 3 right-hand arguments. -/
def exShortCall : MexCall :=
  ⟨1, 3, ⟨true, true, 1, 8, false⟩, ⟨true, 4⟩, ⟨true, 2⟩, ⟨true, 2⟩, ⟨true, 0⟩⟩

/-- A call with `time_res = 9` exceeding the signal length 8. -/
def exTsBigCall : MexCall :=
  ⟨1, 4, ⟨true, true, 1, 8, false⟩, ⟨true, 4⟩, ⟨true, 9⟩, ⟨true, 2⟩, ⟨true, 0⟩⟩

/-- A call whose signal is a 1×1 scalar. -/
def exScalarCall : MexCall :=
  ⟨1, 4, ⟨true, true, 1, 1, false⟩, ⟨true, 4⟩, ⟨true, 2⟩, ⟨true, 2⟩, ⟨true, 0⟩⟩

/-! ### Properties of the radix-2 rounding loop -/

theorem r2Loop_ge (target : Int) :
    ∀ (fuel : Nat) (r2 : Int) (ord : Nat), target ≤ 2 ^ fuel * r2 →
      target ≤ (r2Loop target r2 ord fuel).1 := by
  intro fuel
  induction fuel with
  | zero => intro r2 ord h; simpa [r2Loop] using h
  | succ f ih =>
      intro r2 ord h
      by_cases hc : r2 < target
      · rw [r2Loop, if_pos hc]
        apply ih
        calc target ≤ 2 ^ (f + 1) * r2 := h
          _ = 2 ^ f * (2 * r2) := by ring
      · rw [r2Loop, if_neg hc]
        exact le_of_not_lt hc

theorem r2Loop_pow (target : Int) :
    ∀ (fuel : Nat) (r2 : Int) (ord : Nat), ∃ m : Nat,
      (r2Loop target r2 ord fuel).2 = ord + m ∧
      (r2Loop target r2 ord fuel).1 = r2 * 2 ^ m := by
  intro fuel
  induction fuel with
  | zero => intro r2 ord; exact ⟨0, by simp [r2Loop]⟩
  | succ f ih =>
      intro r2 ord
      by_cases hc : r2 < target
      · rw [r2Loop, if_pos hc]
        obtain ⟨m, h2, h1⟩ := ih (2 * r2) (ord + 1)
        refine ⟨m + 1, by omega, ?_⟩
        rw [h1]; ring
      · rw [r2Loop, if_neg hc]
        exact ⟨0, by simp⟩

theorem r2Loop_below (target : Int) :
    ∀ (fuel : Nat) (r2 : Int) (ord : Nat), 1 ≤ r2 →
      (r2Loop target r2 ord fuel).1 = r2 ∨
      (r2Loop target r2 ord fuel).1 < 2 * target := by
  intro fuel
  induction fuel with
  | zero => intro r2 ord _; exact Or.inl rfl
  | succ f ih =>
      intro r2 ord hr
      by_cases hc : r2 < target
      · rw [r2Loop, if_pos hc]
        rcases ih (2 * r2) (ord + 1) (by omega) with h | h
        · right; rw [h]; omega
        · right; exact h
      · rw [r2Loop, if_neg hc]
        exact Or.inl rfl

theorem self_le_two_pow_toNat (target : Int) : target ≤ 2 ^ target.toNat := by
  rcases le_or_lt target 0 with h | h
  · calc target ≤ 0 := h
      _ ≤ 2 ^ target.toNat := by positivity
  · have h1 : (target.toNat : Int) < 2 ^ target.toNat := by
      have := Nat.lt_two_pow target.toNat
      exact_mod_cast this
    have h2 : target ≤ (target.toNat : Int) := Int.self_le_toNat target
    exact h2.trans h1.le

/-- The loop result is the power of two recorded in `window_order`. -/
theorem radix2_eq_pow (target : Int) : (radix2 target).1 = 2 ^ (radix2 target).2 := by
  obtain ⟨m, h2, h1⟩ := r2Loop_pow target target.toNat 1 0
  unfold radix2
  rw [h1, h2, one_mul, Nat.zero_add]

/-- The loop result reaches the target. -/
theorem radix2_ge (target : Int) : target ≤ (radix2 target).1 :=
  r2Loop_ge target target.toNat 1 0 (by
    have := self_le_two_pow_toNat target
    simpa using this)

/-- The loop result is positive. -/
theorem radix2_pos (target : Int) : 1 ≤ (radix2 target).1 := by
  rw [radix2_eq_pow]
  exact one_le_pow₀ (by norm_num)

/-- The loop result is the smallest power of two reaching the target. -/
theorem radix2_min (target : Int) (m : Nat) (hm : target ≤ 2 ^ m) :
    (radix2 target).1 ≤ 2 ^ m := by
  rcases r2Loop_below target target.toNat 1 0 le_rfl with h | h
  · unfold radix2
    rw [h]
    exact one_le_pow₀ (by norm_num)
  · unfold radix2
    have hpow := radix2_eq_pow target
    unfold radix2 at hpow
    rw [hpow] at h ⊢
    have hlt : (2 : Int) ^ (r2Loop target 1 0 target.toNat).2 < 2 ^ (m + 1) := by
      calc (2 : Int) ^ (r2Loop target 1 0 target.toNat).2 < 2 * target := h
        _ ≤ 2 * 2 ^ m := by linarith
        _ = 2 ^ (m + 1) := by ring
    have hk : (r2Loop target 1 0 target.toNat).2 < m + 1 := by
      by_contra hge
      push_neg at hge
      have := pow_le_pow_right₀ (by norm_num : (1:Int) ≤ 2) hge
      linarith
    exact pow_le_pow_right₀ (by norm_num : (1:Int) ≤ 2) (by omega)

/-- The normalized interpolation degree is a power of two. -/
theorem deg_r2_pow (d : Int) : ∃ k : Nat, deg_r2 d = 2 ^ k := by
  obtain ⟨m, h2, h1⟩ := r2Loop_pow d d.toNat 1 0
  exact ⟨m, by rw [deg_r2, h1, one_mul]⟩

/-- The normalized interpolation degree reaches the request. -/
theorem deg_r2_ge (d : Int) : d ≤ deg_r2 d :=
  r2Loop_ge d d.toNat 1 0 (by
    have := self_le_two_pow_toNat d
    simpa using this)

/-- The normalized interpolation degree is at least one. -/
theorem deg_r2_pos (d : Int) : 1 ≤ deg_r2 d := by
  obtain ⟨k, hk⟩ := deg_r2_pow d
  rw [hk]
  exact one_le_pow₀ (by norm_num)

/-- Ceiling characterization of `nplts = (int)ceil(signal_length/time_res)`:
`ceilDivI L t` is the unique `q` with `t*(q-1) < L ≤ t*q`. -/
theorem ceilDivI_spec (L t : Int) (ht : 1 ≤ t) :
    t * (ceilDivI L t - 1) < L ∧ L ≤ t * ceilDivI L t := by
  have hne : t ≠ 0 := by omega
  have hmod := Int.ediv_add_emod (L + t - 1) t
  have hnon : 0 ≤ (L + t - 1) % t := Int.emod_nonneg _ hne
  have hlt : (L + t - 1) % t < t := Int.emod_lt_of_pos _ (by omega)
  unfold ceilDivI
  constructor
  · rw [mul_sub, mul_one]
    linarith
  · linarith

/-! ### Stage lemmas: what each validation stage accepts, and with what value -/

theorem checkPreamble_ok {c : MexCall} (h4 : 4 ≤ c.nrhs) (h5 : c.nrhs ≤ 5)
    (h1 : c.nlhs ≤ 1) : checkPreamble c = .ok () := by
  unfold checkPreamble
  rw [if_neg (by omega), if_neg (by omega), if_neg (by omega)]

theorem checkPreamble_ok_inv {c : MexCall} {u : Unit}
    (h : checkPreamble c = .ok u) : 4 ≤ c.nrhs ∧ c.nrhs ≤ 5 ∧ c.nlhs ≤ 1 := by
  unfold checkPreamble at h
  split at h
  · exact absurd h (by simp)
  · split at h
    · exact absurd h (by simp)
    · split at h
      · exact absurd h (by simp)
      · omega

theorem checkSignal_ok {c : MexCall} (hn : c.signal.isNumeric = true)
    (hf : c.signal.isFull = true)
    (hsh : (c.signal.M = 1 ∧ c.signal.N ≠ 1) ∨ (c.signal.M ≠ 1 ∧ c.signal.N = 1)) :
    checkSignal c = .ok (signalLen c) := by
  unfold checkSignal
  rw [if_neg (by simp [hn, hf]), if_neg (by rcases hsh with ⟨h1, h2⟩ | ⟨h1, h2⟩ <;> simp [h1, h2])]
  rfl

theorem checkSignal_ok_inv {c : MexCall} {L : Int} (h : checkSignal c = .ok L) :
    c.signal.isNumeric = true ∧ c.signal.isFull = true ∧
    ((c.signal.M = 1 ∧ c.signal.N ≠ 1) ∨ (c.signal.M ≠ 1 ∧ c.signal.N = 1)) ∧
    L = signalLen c ∧ 1 ≤ L := by
  unfold checkSignal at h
  split at h
  · exact absurd h (by simp)
  · split at h
    · exact absurd h (by simp)
    · rename_i hnf hdim
      simp only [not_or, Bool.not_eq_false] at hnf
      push_neg at hdim
      have hsh : (c.signal.M = 1 ∧ c.signal.N ≠ 1) ∨ (c.signal.M ≠ 1 ∧ c.signal.N = 1) := by
        by_cases hM : c.signal.M = 1
        · exact Or.inl ⟨hM, hdim.1 hM⟩
        · exact Or.inr ⟨hM, hdim.2 hM⟩
      have hL : L = signalLen c := by
        simpa [signalLen] using h.symm
      refine ⟨hnf.1, hnf.2, hsh, hL, ?_⟩
      rw [hL]
      have h1 : 1 ≤ max c.signal.M c.signal.N := by
        rcases hsh with ⟨hM, _⟩ | ⟨_, hN⟩ <;> omega
      unfold signalLen
      exact_mod_cast h1

theorem getWindow_ok_inv {c : MexCall} {L wl : Int} {w : Bool}
    (h : getWindow c L = .ok (wl, w)) :
    c.winArg.good = true ∧ 1 ≤ c.winArg.value ∧
    wl = (if c.winArg.value > L then L else c.winArg.value) ∧
    w = decide (c.winArg.value > L) := by
  unfold getWindow at h
  split at h
  · exact absurd h (by simp)
  · split at h
    · exact absurd h (by simp)
    · rename_i hg hlt
      split at h
      · rename_i hgt
        simp only [Except.ok.injEq, Prod.mk.injEq] at h
        refine ⟨by simpa using hg, by omega, ?_, ?_⟩
        · rw [if_pos hgt]; exact h.1.symm
        · rw [h.2.symm, decide_eq_true hgt]
      · rename_i hgt
        simp only [Except.ok.injEq, Prod.mk.injEq] at h
        refine ⟨by simpa using hg, by omega, ?_, ?_⟩
        · rw [if_neg hgt]; exact h.1.symm
        · rw [h.2.symm]
          simp [hgt]

theorem getWindow_ok {c : MexCall} (L : Int) (hg : c.winArg.good = true)
    (hv : 1 ≤ c.winArg.value) :
    getWindow c L = .ok (if c.winArg.value > L then L else c.winArg.value,
                         decide (c.winArg.value > L)) := by
  unfold getWindow
  rw [if_neg (by simp [hg]), if_neg (by omega)]
  split
  · rename_i hgt
    rw [decide_eq_true hgt]
  · rename_i hgt
    simp [hgt]

theorem getTime_ok_inv {c : MexCall} {L t : Int} (h : getTime c L = .ok t) :
    c.timeArg.good = true ∧ 1 ≤ c.timeArg.value ∧ c.timeArg.value ≤ L ∧
    t = c.timeArg.value := by
  unfold getTime at h
  split at h
  · exact absurd h (by simp)
  · split at h
    · exact absurd h (by simp)
    · split at h
      · exact absurd h (by simp)
      · rename_i hg h1 h2
        simp only [Except.ok.injEq] at h
        exact ⟨by simpa using hg, by omega, by omega, h.symm⟩

theorem getTime_ok {c : MexCall} (L : Int) (hg : c.timeArg.good = true)
    (h1 : 1 ≤ c.timeArg.value) (h2 : c.timeArg.value ≤ L) :
    getTime c L = .ok c.timeArg.value := by
  unfold getTime
  rw [if_neg (by simp [hg]), if_neg (by omega), if_neg (by omega)]

theorem getDeg_ok_inv {c : MexCall} {d : Int} (h : getDeg c = .ok d) :
    c.degArg.good = true ∧ d = deg_r2 c.degArg.value := by
  unfold getDeg at h
  split at h
  · exact absurd h (by simp)
  · rename_i hg
    simp only [Except.ok.injEq] at h
    exact ⟨by simpa using hg, h.symm⟩

theorem getDeg_ok {c : MexCall} (hg : c.degArg.good = true) :
    getDeg c = .ok (deg_r2 c.degArg.value) := by
  unfold getDeg
  rw [if_neg (by simp [hg])]

theorem getFft_ok_inv {c : MexCall} {wl f : Int} (h : getFft c wl = .ok f) :
    (c.nrhs = 5 → c.fftArg.good = true) ∧
    0 ≤ (if c.nrhs = 5 then c.fftArg.value else wl) ∧
    f = (if (if c.nrhs = 5 then c.fftArg.value else wl) < wl then wl
         else (if c.nrhs = 5 then c.fftArg.value else wl)) := by
  unfold getFft at h
  split at h
  · exact absurd h (by simp)
  · rename_i fl heq
    split at h
    · exact absurd h (by simp)
    · rename_i hneg
      simp only [Except.ok.injEq] at h
      split at heq
      · rename_i h5
        split at heq
        · exact absurd heq (by simp)
        · rename_i hg
          simp only [Except.ok.injEq] at heq
          rw [if_pos h5]
          exact ⟨fun _ => by simpa using hg, by omega, by rw [heq]; exact h.symm⟩
      · rename_i h5
        simp only [Except.ok.injEq] at heq
        rw [if_neg h5]
        exact ⟨fun h' => absurd h' h5, by omega, by rw [heq] at h ⊢; exact h.symm⟩

theorem getFft_ok {c : MexCall} (wl : Int)
    (hg : c.nrhs = 5 → c.fftArg.good = true)
    (hnn : 0 ≤ (if c.nrhs = 5 then c.fftArg.value else wl)) :
    getFft c wl = .ok (if (if c.nrhs = 5 then c.fftArg.value else wl) < wl then wl
                       else (if c.nrhs = 5 then c.fftArg.value else wl)) := by
  unfold getFft
  split
  · rename_i fl heq
    split at heq
    · rename_i h5
      rw [if_neg (by simp [hg h5])] at heq
      exact absurd heq (by simp)
    · exact absurd heq (by simp)
  · rename_i fl heq
    split at heq
    · rename_i h5
      rw [if_neg (by simp [hg h5])] at heq
      simp only [Except.ok.injEq] at heq
      rw [if_pos h5] at hnn ⊢
      rw [if_neg (by omega)]
      rw [heq]
    · rename_i h5
      simp only [Except.ok.injEq] at heq
      rw [if_neg h5] at hnn ⊢
      rw [if_neg (by omega)]
      rw [heq]

/-! ### The two master lemmas about `mexFunction` -/

theorem wlClamped_le_fftEff (c : MexCall) : wlClamped c ≤ fftEff c := by
  unfold fftEff
  split
  · exact le_refl _
  · exact le_of_not_lt ‹_›

theorem fftReq_le_fftEff (c : MexCall) : fftReq c ≤ fftEff c := by
  unfold fftEff
  split
  · exact le_of_lt ‹_›
  · exact le_refl _

/-- Inversion: everything that is true of the inputs and of the engine-call
state whenever the gateway completes. -/
theorem mex_ok_fields {c : MexCall} {env : Env} {w : Bool} {out : GatewayOut}
    (h : mexFunction c env = .ok w out) :
    4 ≤ c.nrhs ∧ c.nrhs ≤ 5 ∧ c.nlhs ≤ 1 ∧
    c.signal.isNumeric = true ∧ c.signal.isFull = true ∧
    ((c.signal.M = 1 ∧ c.signal.N ≠ 1) ∨ (c.signal.M ≠ 1 ∧ c.signal.N = 1)) ∧
    c.winArg.good = true ∧ 1 ≤ c.winArg.value ∧
    c.timeArg.good = true ∧ 1 ≤ c.timeArg.value ∧ c.timeArg.value ≤ signalLen c ∧
    c.degArg.good = true ∧ (c.nrhs = 5 → c.fftArg.good = true) ∧ 0 ≤ fftReq c ∧
    env.allocOk = true ∧ env.engineOk = true ∧
    w = decide (c.winArg.value > signalLen c) ∧
    out.window_length = wlClamped c ∧
    out.time_res = c.timeArg.value ∧
    out.deg = deg_r2 c.degArg.value ∧
    out.fft_length = fftEff c ∧
    out.window_r2 = (radix2 (fftEff c)).1 ∧
    out.window_order = (radix2 (fftEff c)).2 ∧
    out.rows = (radix2 (fftEff c)).1 / 2 ∧
    out.cols = ceilDivI (signalLen c) c.timeArg.value := by
  unfold mexFunction at h
  split at h
  · exact absurd h (by simp)
  · rename_i u hP
    split at h
    · exact absurd h (by simp)
    · rename_i L hS
      split at h
      · exact absurd h (by simp)
      · rename_i wl wrn hW
        split at h
        · exact absurd h (by simp)
        · rename_i t hT
          split at h
          · exact absurd h (by simp)
          · rename_i d hD
            split at h
            · exact absurd h (by simp)
            · rename_i f hF
              split at h
              · exact absurd h (by simp)
              · split at h
                · exact absurd h (by simp)
                · rename_i hak hek
                  simp only [GatewayResult.ok.injEq] at h
                  obtain ⟨hw, hout⟩ := h
                  obtain ⟨h4, h5, h1⟩ := checkPreamble_ok_inv hP
                  obtain ⟨hn, hf, hsh, hLeq, hL1⟩ := checkSignal_ok_inv hS
                  obtain ⟨hwg, hwv, hwleq, hwrn⟩ := getWindow_ok_inv hW
                  obtain ⟨htg, ht1, ht2, hteq⟩ := getTime_ok_inv hT
                  obtain ⟨hdg, hdeq⟩ := getDeg_ok_inv hD
                  obtain ⟨hfg, hfnn, hfeq⟩ := getFft_ok_inv hF
                  subst hLeq
                  have hwl : wl = wlClamped c := by rw [wlClamped]; exact hwleq
                  have hreq : (if c.nrhs = 5 then c.fftArg.value else wl) = fftReq c := by
                    rw [fftReq, hwl]
                  have hfe : f = fftEff c := by
                    rw [fftEff, ← hreq, ← hwl]
                    exact hfeq
                  subst hout
                  refine ⟨h4, h5, h1, hn, hf, hsh, hwg, hwv, htg, ht1, ht2, hdg, hfg,
                    ?_, by simpa using hak, by simpa using hek, ?_, ?_, ?_, ?_, ?_, ?_, ?_, ?_, ?_⟩
                  · rw [← hreq]; exact hfnn
                  · rw [← hw, hwrn]
                  · exact hwl
                  · exact hteq
                  · exact hdeq
                  · exact hfe
                  · rw [hfe]
                  · rw [hfe]
                  · rw [hfe]
                  · rw [hteq]

/-- Construction: a call meeting every precondition, in an environment where
allocation and the engine succeed, completes with exactly the normalized
state the gateway computes. -/
theorem mex_valid_ok {c : MexCall} {env : Env} (hv : ValidCall c)
    (ha : env.allocOk = true) (he : env.engineOk = true) :
    mexFunction c env = .ok (decide (c.winArg.value > signalLen c))
      { rows := (radix2 (fftEff c)).1 / 2,
        cols := ceilDivI (signalLen c) c.timeArg.value,
        window_length := wlClamped c, time_res := c.timeArg.value,
        deg := deg_r2 c.degArg.value, fft_length := fftEff c,
        window_r2 := (radix2 (fftEff c)).1,
        window_order := (radix2 (fftEff c)).2 } := by
  obtain ⟨h45, h1, hn, hf, hsh, hwg, hwv, htg, ht1, ht2, hdg, hfft⟩ := hv
  have h4 : 4 ≤ c.nrhs := by omega
  have h5 : c.nrhs ≤ 5 := by omega
  have hsh' : (c.signal.M = 1 ∧ c.signal.N ≠ 1) ∨ (c.signal.M ≠ 1 ∧ c.signal.N = 1) := by
    rcases hsh with ⟨a, b⟩ | ⟨a, b⟩
    · exact Or.inl ⟨a, by omega⟩
    · exact Or.inr ⟨by omega, a⟩
  have hL2 : (2 : Int) ≤ signalLen c := by
    unfold signalLen
    have : 2 ≤ max c.signal.M c.signal.N := by
      rcases hsh with ⟨a, b⟩ | ⟨a, b⟩ <;> omega
    exact_mod_cast this
  have hfg' : c.nrhs = 5 → c.fftArg.good = true := fun h => (hfft h).1
  have hnn' : 0 ≤ (if c.nrhs = 5 then c.fftArg.value
      else (if c.winArg.value > signalLen c then signalLen c else c.winArg.value)) := by
    split
    · exact (hfft ‹_›).2
    · split <;> omega
  have hP := checkPreamble_ok (c := c) h4 h5 h1
  have hS := checkSignal_ok (c := c) hn hf hsh'
  have hW := getWindow_ok (c := c) (signalLen c) hwg hwv
  have hT := getTime_ok (c := c) (signalLen c) htg ht1 ht2
  have hD := getDeg_ok (c := c) hdg
  have hF := getFft_ok (c := c)
    (if c.winArg.value > signalLen c then signalLen c else c.winArg.value) hfg' hnn'
  simp only [mexFunction, hP, hS, hW, hT, hD, hF, ha, he]
  rfl

/-- The accepted signal shapes give a positive `signal_length`. -/
theorem signalLen_ge_one {c : MexCall}
    (hsh : (c.signal.M = 1 ∧ c.signal.N ≠ 1) ∨ (c.signal.M ≠ 1 ∧ c.signal.N = 1)) :
    1 ≤ signalLen c := by
  unfold signalLen
  have : 1 ≤ max c.signal.M c.signal.N := by
    rcases hsh with ⟨a, _⟩ | ⟨_, a⟩ <;> omega
  exact_mod_cast this

/-! ### The claims -/

/-- C1: for every valid input (one-dimensional numeric signal of length ≥ 2,
`1 ≤ time_step ≤ signal_length`, `window_length ≥ 1`, `transform_length ≥ 0`
when supplied), the matrix allocated by the gateway has exactly
`radix_length/2` rows and `ceil(signal_length/time_step)` columns, where
`radix_length` (= `window_r2`) is the smallest power of two at or above the
effective FFT length. -/
theorem C1_output_shape (c : MexCall) (env : Env) (hv : ValidCall c)
    (ha : env.allocOk = true) (he : env.engineOk = true) :
    ∃ (w : Bool) (out : GatewayOut), mexFunction c env = .ok w out ∧
      out.window_r2 = 2 ^ out.window_order ∧
      fftEff c ≤ out.window_r2 ∧
      (∀ j : Nat, fftEff c ≤ 2 ^ j → out.window_r2 ≤ 2 ^ j) ∧
      out.rows = out.window_r2 / 2 ∧
      c.timeArg.value * (out.cols - 1) < signalLen c ∧
      signalLen c ≤ c.timeArg.value * out.cols := by
  obtain ⟨h45, h1, hn, hf, hsh, hwg, hwv, htg, ht1, ht2, hdg, hfft⟩ := hv
  refine ⟨_, _, mex_valid_ok ⟨h45, h1, hn, hf, hsh, hwg, hwv, htg, ht1, ht2, hdg, hfft⟩ ha he,
    radix2_eq_pow _, radix2_ge _, fun j hj => radix2_min _ j hj, rfl,
    (ceilDivI_spec _ _ ht1).1, (ceilDivI_spec _ _ ht1).2⟩

/-- Witness for C1 at a concrete valid call. -/
theorem C1_output_shape_witness :
    ∃ (w : Bool) (out : GatewayOut), mexFunction exCall exEnv = .ok w out ∧
      out.window_r2 = 2 ^ out.window_order ∧
      fftEff exCall ≤ out.window_r2 ∧
      (∀ j : Nat, fftEff exCall ≤ 2 ^ j → out.window_r2 ≤ 2 ^ j) ∧
      out.rows = out.window_r2 / 2 ∧
      exCall.timeArg.value * (out.cols - 1) < signalLen exCall ∧
      signalLen exCall ≤ exCall.timeArg.value * out.cols :=
  C1_output_shape exCall exEnv (by decide) rfl rfl

/-- C2: on every accepted call the computed `window_r2` is a power of two
(namely `2 ^ window_order`), at least the clamped window length, and at
least the requested transform length (`prhs[4]` when present, else the
default, which is the window length). -/
theorem C2_radix_pow_ge (c : MexCall) (env : Env) (w : Bool) (out : GatewayOut)
    (h : mexFunction c env = .ok w out) :
    out.window_r2 = 2 ^ out.window_order ∧
    out.window_length ≤ out.window_r2 ∧
    (if c.nrhs = 5 then c.fftArg.value else out.window_length) ≤ out.window_r2 := by
  obtain ⟨h4, h5, h1, hn, hf, hsh, hwg, hwv, htg, ht1, ht2, hdg, hfg, hreqnn, hak, hek,
    hw, hwl, hts, hdeg, hfft, hr2, hord, hrows, hcols⟩ := mex_ok_fields h
  refine ⟨?_, ?_, ?_⟩
  · rw [hr2, hord]; exact radix2_eq_pow _
  · rw [hwl, hr2]; exact (wlClamped_le_fftEff c).trans (radix2_ge _)
  · by_cases h5' : c.nrhs = 5
    · rw [if_pos h5', hr2]
      have hq := fftReq_le_fftEff c
      rw [fftReq, if_pos h5'] at hq
      exact hq.trans (radix2_ge _)
    · rw [if_neg h5', hwl, hr2]
      exact (wlClamped_le_fftEff c).trans (radix2_ge _)

/-- Witness for C2 at a concrete accepted five-argument call. -/
theorem C2_radix_pow_ge_witness :
    mexFunction exCall5 exEnv = .ok false ⟨4, 4, 4, 2, 2, 7, 8, 3⟩ ∧
    ((8 : Int) = 2 ^ 3 ∧ (4 : Int) ≤ 8 ∧
     (if exCall5.nrhs = 5 then exCall5.fftArg.value else (4 : Int)) ≤ 8) :=
  ⟨by decide, C2_radix_pow_ge exCall5 exEnv false ⟨4, 4, 4, 2, 2, 7, 8, 3⟩ (by decide)⟩

/-- C3: for every non-negative request the normalized interpolation order is
a power of two ≥ 1 that reaches the request (repeated doubling from 1); the
requests 0,1,2,3,4,5 normalize to 1,1,2,4,4,8; and the value passed to the
engine is exactly this normalization of the fourth argument. -/
theorem C3_deg_normalization :
    (∀ d : Int, 0 ≤ d → ∃ k : Nat, deg_r2 d = 2 ^ k ∧ 1 ≤ deg_r2 d ∧ d ≤ deg_r2 d) ∧
    deg_r2 0 = 1 ∧ deg_r2 1 = 1 ∧ deg_r2 2 = 2 ∧ deg_r2 3 = 4 ∧
    deg_r2 4 = 4 ∧ deg_r2 5 = 8 ∧
    (∀ (c : MexCall) (env : Env) (w : Bool) (out : GatewayOut),
        mexFunction c env = .ok w out → out.deg = deg_r2 c.degArg.value) := by
  refine ⟨?_, by decide, by decide, by decide, by decide, by decide, by decide, ?_⟩
  · intro d _
    obtain ⟨k, hk⟩ := deg_r2_pow d
    exact ⟨k, hk, deg_r2_pos d, deg_r2_ge d⟩
  · intro c env w out h
    obtain ⟨_, _, _, _, _, _, _, _, _, _, _, _, _, _, _, _, _, _, _, hdeg, _⟩ :=
      mex_ok_fields h
    exact hdeg

/-- Witness for C3 at the concrete request 3. -/
theorem C3_deg_normalization_witness :
    (0 : Int) ≤ 3 ∧ ∃ k : Nat, deg_r2 3 = 2 ^ k ∧ 1 ≤ deg_r2 3 ∧ (3 : Int) ≤ deg_r2 3 :=
  ⟨by decide, C3_deg_normalization.1 3 (by decide)⟩

/-- C4: a call whose window length exceeds the signal length does not fail:
the window length is clamped to the signal length, the warning flag (and not
an error) is reported, and the computation proceeds with the clamped
value. -/
theorem C4_window_clamp_warns {c : MexCall} {env : Env} (hv : ValidCall c)
    (hgt : signalLen c < c.winArg.value)
    (ha : env.allocOk = true) (he : env.engineOk = true) :
    ∃ out : GatewayOut, mexFunction c env = .ok true out ∧
      out.window_length = signalLen c := by
  have h := mex_valid_ok hv ha he
  rw [decide_eq_true hgt] at h
  refine ⟨_, h, ?_⟩
  show wlClamped c = signalLen c
  unfold wlClamped
  rw [if_pos hgt]

/-- Witness for C4 at a concrete call with window 10 over signal length 8. -/
theorem C4_window_clamp_warns_witness :
    ∃ out : GatewayOut, mexFunction exClampCall exEnv = .ok true out ∧
      out.window_length = signalLen exClampCall :=
  C4_window_clamp_warns (by decide) (by decide) rfl rfl

/-- C5: each of `time_res = 0`, `window_length = 0`, and `fft_length = -1`
(on a call that is well-formed up to that parameter) fails with the
corresponding named parameter error; the error result carries no output
matrix. -/
theorem C5_param_rejections :
    (∀ (c : MexCall) (env : Env),
        4 ≤ c.nrhs → c.nrhs ≤ 5 → c.nlhs ≤ 1 →
        c.signal.isNumeric = true → c.signal.isFull = true →
        ((c.signal.M = 1 ∧ c.signal.N ≠ 1) ∨ (c.signal.M ≠ 1 ∧ c.signal.N = 1)) →
        c.winArg.good = true → c.winArg.value = 0 →
        mexFunction c env = .error "Window length must be greater than zero") ∧
    (∀ (c : MexCall) (env : Env),
        4 ≤ c.nrhs → c.nrhs ≤ 5 → c.nlhs ≤ 1 →
        c.signal.isNumeric = true → c.signal.isFull = true →
        ((c.signal.M = 1 ∧ c.signal.N ≠ 1) ∨ (c.signal.M ≠ 1 ∧ c.signal.N = 1)) →
        c.winArg.good = true → 1 ≤ c.winArg.value →
        c.timeArg.good = true → c.timeArg.value = 0 →
        mexFunction c env = .error "Time resolution must be greater than zero") ∧
    (∀ (c : MexCall) (env : Env),
        c.nrhs = 5 → c.nlhs ≤ 1 →
        c.signal.isNumeric = true → c.signal.isFull = true →
        ((c.signal.M = 1 ∧ c.signal.N ≠ 1) ∨ (c.signal.M ≠ 1 ∧ c.signal.N = 1)) →
        c.winArg.good = true → 1 ≤ c.winArg.value →
        c.timeArg.good = true → 1 ≤ c.timeArg.value → c.timeArg.value ≤ signalLen c →
        c.degArg.good = true → c.fftArg.good = true → c.fftArg.value = -1 →
        mexFunction c env = .error "FFT length must be greater than zero") := by
  refine ⟨?_, ?_, ?_⟩
  · intro c env h4 h5 h1 hn hf hsh hwg hw0
    have hW : getWindow c (signalLen c) =
        .error "Window length must be greater than zero" := by
      unfold getWindow
      rw [if_neg (by simp [hwg]), if_pos (by omega)]
    simp only [mexFunction, checkPreamble_ok h4 h5 h1, checkSignal_ok hn hf hsh, hW]
  · intro c env h4 h5 h1 hn hf hsh hwg hwv htg ht0
    have hT : getTime c (signalLen c) =
        .error "Time resolution must be greater than zero" := by
      unfold getTime
      rw [if_neg (by simp [htg]), if_pos (by omega)]
    simp only [mexFunction, checkPreamble_ok h4 h5 h1, checkSignal_ok hn hf hsh,
      getWindow_ok (signalLen c) hwg hwv, hT]
  · intro c env h5 h1 hn hf hsh hwg hwv htg ht1 ht2 hdg hfg hfv
    have hF : getFft c (if c.winArg.value > signalLen c then signalLen c
          else c.winArg.value) = .error "FFT length must be greater than zero" := by
      unfold getFft
      rw [if_pos h5, if_neg (by simp [hfg]), hfv]
      rfl
    simp only [mexFunction, checkPreamble_ok (by omega) (by omega) h1,
      checkSignal_ok hn hf hsh, getWindow_ok (signalLen c) hwg hwv,
      getTime_ok (signalLen c) htg ht1 ht2, getDeg_ok hdg, hF]

/-- Witness for C5 at three concrete calls, one per rejected parameter. -/
theorem C5_param_rejections_witness :
    mexFunction exWin0Call exEnv = .error "Window length must be greater than zero" ∧
    mexFunction exTs0Call exEnv = .error "Time resolution must be greater than zero" ∧
    mexFunction exFftNeg1Call exEnv = .error "FFT length must be greater than zero" :=
  ⟨C5_param_rejections.1 exWin0Call exEnv (by decide) (by decide) (by decide) (by decide)
      (by decide) (by decide) (by decide) (by decide),
   C5_param_rejections.2.1 exTs0Call exEnv (by decide) (by decide) (by decide) (by decide)
      (by decide) (by decide) (by decide) (by decide) (by decide) (by decide),
   C5_param_rejections.2.2 exFftNeg1Call exEnv (by decide) (by decide) (by decide)
      (by decide) (by decide) (by decide) (by decide) (by decide) (by decide) (by decide)
      (by decide) (by decide) (by decide)⟩

/-- C6 counterexample: an empty 0×1 signal (zero elements, so an empty
input) is NOT rejected by the shape check: with well-formed remaining
parameters the call runs to completion, so the claim that every empty input
is rejected with the invalid-shape error before parameter processing fails
on the code. -/
theorem C6_shape_rejection_cex :
    ex0x1Call.signal.M * ex0x1Call.signal.N = 0 ∧
    mexFunction ex0x1Call exEnv = .ok false ⟨0, 1, 1, 1, 2, 1, 1, 0⟩ := by
  decide

/-- C6 amended: a 1×1 scalar, and any array with both dimensions different
from 1 (which includes the 0×0 empty array and all genuine matrices), is
rejected with the invalid-shape error before any parameter or environment
value is consulted; degenerate 0×1 / 1×0 empty vectors, however, pass the
shape check. -/
theorem C6_shape_rejection_amended (c : MexCall) (env : Env)
    (h4 : 4 ≤ c.nrhs) (h5 : c.nrhs ≤ 5) (h1 : c.nlhs ≤ 1)
    (hn : c.signal.isNumeric = true) (hf : c.signal.isFull = true)
    (hsh : (c.signal.M = 1 ∧ c.signal.N = 1) ∨ (c.signal.M ≠ 1 ∧ c.signal.N ≠ 1)) :
    mexFunction c env = .error "Input must be a vector" := by
  have hS : checkSignal c = .error "Input must be a vector" := by
    unfold checkSignal
    rw [if_neg (by simp [hn, hf]), if_pos hsh]
  simp only [mexFunction, checkPreamble_ok h4 h5 h1, hS]

/-- Witness for the amended C6 at a concrete 1×1 scalar signal. -/
theorem C6_shape_rejection_amended_witness :
    mexFunction exScalarCall exEnv = .error "Input must be a vector" :=
  C6_shape_rejection_amended exScalarCall exEnv (by decide) (by decide) (by decide)
    (by decide) (by decide) (by decide)

/-- C7: a call whose time resolution exceeds the signal length (the scalar
being otherwise well-formed) fails with the out-of-range error and produces
no output matrix. -/
theorem C7_time_res_out_of_range (c : MexCall) (env : Env)
    (h4 : 4 ≤ c.nrhs) (h5 : c.nrhs ≤ 5) (h1 : c.nlhs ≤ 1)
    (hn : c.signal.isNumeric = true) (hf : c.signal.isFull = true)
    (hsh : (c.signal.M = 1 ∧ c.signal.N ≠ 1) ∨ (c.signal.M ≠ 1 ∧ c.signal.N = 1))
    (hwg : c.winArg.good = true) (hwv : 1 ≤ c.winArg.value)
    (htg : c.timeArg.good = true) (hgt : signalLen c < c.timeArg.value) :
    mexFunction c env =
      .error "Time resolution must be no greater than signal length" := by
  have hL1 := signalLen_ge_one hsh
  have hT : getTime c (signalLen c) =
      .error "Time resolution must be no greater than signal length" := by
    unfold getTime
    rw [if_neg (by simp [htg]), if_neg (by omega), if_pos hgt]
  simp only [mexFunction, checkPreamble_ok h4 h5 h1, checkSignal_ok hn hf hsh,
    getWindow_ok (signalLen c) hwg hwv, hT]

/-- Witness for C7 at a concrete call with `time_res = 9` on length 8. -/
theorem C7_time_res_out_of_range_witness :
    mexFunction exTsBigCall exEnv =
      .error "Time resolution must be no greater than signal length" :=
  C7_time_res_out_of_range exTsBigCall exEnv (by decide) (by decide) (by decide)
    (by decide) (by decide) (by decide) (by decide) (by decide) (by decide) (by decide)

/-- C8: on any failure the caller receives no result matrix: a completed
call requires both the allocation and the engine to have succeeded, so when
either fails the gateway never returns a matrix (every error path routes
through the output-clearing handler and the `error` result carries no
matrix). -/
theorem C8_no_output_on_failure :
    (∀ (c : MexCall) (env : Env) (w : Bool) (out : GatewayOut),
        mexFunction c env = .ok w out → env.allocOk = true ∧ env.engineOk = true) ∧
    (∀ (c : MexCall) (env : Env) (w : Bool) (out : GatewayOut),
        env.allocOk = false ∨ env.engineOk = false → mexFunction c env ≠ .ok w out) := by
  have key : ∀ (c : MexCall) (env : Env) (w : Bool) (out : GatewayOut),
      mexFunction c env = .ok w out → env.allocOk = true ∧ env.engineOk = true := by
    intro c env w out h
    obtain ⟨_, _, _, _, _, _, _, _, _, _, _, _, _, _, hak, hek, _⟩ := mex_ok_fields h
    exact ⟨hak, hek⟩
  refine ⟨key, ?_⟩
  intro c env w out hf hok
  rcases hf with hf | hf
  · rcases key c env w out hok with ⟨h, _⟩
    rw [hf] at h
    exact absurd h (by simp)
  · rcases key c env w out hok with ⟨_, h⟩
    rw [hf] at h
    exact absurd h (by simp)

/-- Witness for C8 at a concrete completed call. -/
theorem C8_no_output_on_failure_witness :
    exEnv.allocOk = true ∧ exEnv.engineOk = true :=
  C8_no_output_on_failure.1 exCall exEnv false ⟨2, 4, 4, 2, 2, 4, 4, 2⟩ (by decide)

/-- C9: the gateway rejects fewer than 4 or more than 5 right-hand
arguments (3 or 4 logical parameters beyond the signal) and more than one
output value, in each case regardless of the signal, the parameter values
and the environment, i.e. before touching them. -/
theorem C9_arity_rejection (c : MexCall) (env : Env) :
    (c.nrhs < 4 → mexFunction c env = .error "Not enough input arguments") ∧
    (5 < c.nrhs → mexFunction c env = .error "Too many input arguments") ∧
    (4 ≤ c.nrhs → c.nrhs ≤ 5 → 1 < c.nlhs →
      mexFunction c env = .error "Too many output arguments") := by
  refine ⟨?_, ?_, ?_⟩
  · intro h
    have hP : checkPreamble c = .error "Not enough input arguments" := by
      unfold checkPreamble
      rw [if_pos h]
    simp only [mexFunction, hP]
  · intro h
    have hP : checkPreamble c = .error "Too many input arguments" := by
      unfold checkPreamble
      rw [if_neg (by omega), if_pos h]
    simp only [mexFunction, hP]
  · intro h4 h5 h1
    have hP : checkPreamble c = .error "Too many output arguments" := by
      unfold checkPreamble
      rw [if_neg (by omega), if_neg (by omega), if_pos h1]
    simp only [mexFunction, hP]

/-- Witness for C9 at a concrete call with only 3 right-hand arguments. -/
theorem C9_arity_rejection_witness :
    mexFunction exShortCall exEnv = .error "Not enough input arguments" :=
  (C9_arity_rejection exShortCall exEnv).1 (by decide)

/-- C10: when `window_length = 1` and the transform-length parameter is
absent or at most 1, the computed `window_r2` is 1 and the gateway
allocates the output with `(int)(1*0.5) = 0` rows, and such a call can pass
all validation and complete with a zero-row matrix. -/
theorem C10_zero_rows :
    (∀ (c : MexCall) (env : Env) (w : Bool) (out : GatewayOut),
        mexFunction c env = .ok w out → c.winArg.value = 1 →
        (c.nrhs = 4 ∨ (c.nrhs = 5 ∧ c.fftArg.value ≤ 1)) →
        out.window_r2 = 1 ∧ out.rows = 0) ∧
    mexFunction exZeroRowsCall exEnv = .ok false ⟨0, 2, 1, 1, 1, 1, 1, 0⟩ := by
  constructor
  · intro c env w out h hw1 hreq
    obtain ⟨h4, h5, h1, hn, hf, hsh, hwg, hwv, htg, ht1, ht2, hdg, hfg, hreqnn, hak, hek,
      hwb, hwl, hts, hdeg, hfft, hr2, hord, hrows, hcols⟩ := mex_ok_fields h
    have hL1 := signalLen_ge_one hsh
    have hclamp : wlClamped c = 1 := by
      unfold wlClamped
      rw [hw1, if_neg (by omega)]
    have heff : fftEff c = 1 := by
      unfold fftEff
      unfold fftReq at hreqnn ⊢
      rcases hreq with h45 | ⟨h45, hle⟩
      · rw [if_neg (by omega), hclamp, if_neg (by omega)]
      · rw [if_pos h45] at hreqnn ⊢
        rw [hclamp]
        by_cases hv1 : c.fftArg.value < 1
        · rw [if_pos hv1]
        · rw [if_neg hv1]
          omega
    refine ⟨?_, ?_⟩
    · rw [hr2, heff]
      decide
    · rw [hrows, heff]
      decide
  · decide

/-- Witness for C10's general part at the concrete zero-row call. -/
theorem C10_zero_rows_witness :
    (⟨0, 2, 1, 1, 1, 1, 1, 0⟩ : GatewayOut).window_r2 = 1 ∧
    (⟨0, 2, 1, 1, 1, 1, 1, 0⟩ : GatewayOut).rows = 0 :=
  C10_zero_rows.1 exZeroRowsCall exEnv false ⟨0, 2, 1, 1, 1, 1, 1, 0⟩ (by decide)
    (by decide) (Or.inl (by decide))

end PWVD6

